import Mathlib

/-!
Verification of the social-media analytics core: the Instagram/Facebook
follower-trend reconstruction, flatness detection and synthetic enhancement,
the retrying request clients with adaptive rate limiting, and the hourly
best-times aggregators.  Definitions are shallow embeddings of the Python
source in `instagram_analytics.py` and `facebook_analytics.py`; machine
floats are modelled as exact rationals and the random jitter sources are
injected as explicit function parameters.
-/

/-! ## Delta reconstruction (`InstagramAnalytics.get_follower_count_trend`)

The Python loop walks `follower_changes` from the last index down to index 0,
each step prepending the running total to `actual_counts` and then
subtracting that day's change:

    running_total = current_followers
    for i in range(len(follower_changes) - 1, -1, -1):
        actual_counts.insert(0, running_total)
        running_total -= follower_changes[i]
-/

/-- One iteration state of the reverse walk: the first argument is the list of
daily changes still to process (already reversed, i.e. newest first), the
second is the accumulated `actual_counts`, the third the `running_total`. -/
def actualCountsLoop : List Int → List Int → Int → List Int
  | [], acc, _ => acc
  | change :: rest, acc, running_total =>
      actualCountsLoop rest (running_total :: acc) (running_total - change)

/-- The reconstructed follower-count series of
`InstagramAnalytics.get_follower_count_trend`: the deltas are processed in
reverse chronological order, seeded with the current absolute total. -/
def get_follower_count_trend_counts (follower_changes : List Int)
    (current_followers : Int) : List Int :=
  actualCountsLoop follower_changes.reverse [] current_followers

/-! ## Rate limiter and retrying client (`facebook_analytics.py`)

`FacebookRateLimiter` keeps `rate_limit_errors` and `min_interval` (the
wall-clock `last_call_time` field only feeds `wait_if_needed`, which sleeps
for call spacing and is not modelled).  Floats are modelled as rationals and
the random jitter of each backoff is an injected function of the attempt
index. -/

structure RateLimiterState where
  rate_limit_errors : Nat
  min_interval : ℚ
deriving DecidableEq, Repr

/-- `FacebookRateLimiter.handle_rate_limit_error`, state part: increments the
error count and raises `min_interval` by the factor 1.5 capped at 5.0
(the sleep it performs is accounted separately as a rate-limit sleep). -/
def handle_rate_limit_error (st : RateLimiterState) : RateLimiterState :=
  { rate_limit_errors := st.rate_limit_errors + 1,
    min_interval := min 5 (st.min_interval * (3 / 2)) }

/-- The success branch of `_make_request_with_retry` (lines 150-153): only
when `rate_limit_errors > 0` it decrements the count (floored at 0) and
multiplies `min_interval` by 0.9 floored at 1.0. -/
def on_success (st : RateLimiterState) : RateLimiterState :=
  if 0 < st.rate_limit_errors then
    { rate_limit_errors := max 0 (st.rate_limit_errors - 1),
      min_interval := max 1 (st.min_interval * (9 / 10)) }
  else st

/-- Classification of what one HTTP attempt of
`FacebookAnalytics._make_request_with_retry` observes:
a 429 (or rate-limited 403) status, a `Timeout` exception, another
`RequestException`, an unexpected exception, an HTTP-success body embedding a
Facebook error object with the given code, or a clean JSON payload
(abstracted to a `Nat` tag). -/
inductive AttemptOutcome where
  | httpRateLimited : AttemptOutcome
  | timeoutExc : AttemptOutcome
  | requestExc : AttemptOutcome
  | otherExc : AttemptOutcome
  | apiError : Int → AttemptOutcome
  | ok : Nat → AttemptOutcome
deriving DecidableEq, Repr

/-- Observable trace of one `_make_request_with_retry` run: the returned
value (`none` = the Python `None`), the number of HTTP calls issued, the
number of `handle_rate_limit_error` invocations (each of which sleeps), the
durations of the plain `time.sleep` backoffs in order, and the final rate
limiter state. -/
structure RunTrace where
  result : Option Nat
  calls : Nat
  rlSleeps : Nat
  backoffSleeps : List ℚ
  state : RateLimiterState
deriving DecidableEq, Repr

/-- The retry loop of `FacebookAnalytics._make_request_with_retry`, one
constructor case per classification of the current attempt's outcome.
`j a` is the `random.uniform(0, 1)` jitter drawn for a backoff at attempt
`a`. -/
def runRetryGo (j : Nat → ℚ) : RateLimiterState → Nat → Nat →
    List AttemptOutcome → RunTrace
  | st, _, _, [] => ⟨none, 0, 0, [], st⟩
  | st, attempt, maxRetries, o :: rest =>
    if maxRetries ≤ attempt then ⟨none, 0, 0, [], st⟩
    else
      match o with
      | AttemptOutcome.httpRateLimited =>
          if attempt < maxRetries - 1 then
            let t := runRetryGo j (handle_rate_limit_error st) (attempt + 1)
              maxRetries rest
            ⟨t.result, t.calls + 1, t.rlSleeps + 1, t.backoffSleeps, t.state⟩
          else ⟨none, 1, 0, [], st⟩
      | AttemptOutcome.timeoutExc =>
          if attempt < maxRetries - 1 then
            let t := runRetryGo j st (attempt + 1) maxRetries rest
            ⟨t.result, t.calls + 1, t.rlSleeps,
              ((2 : ℚ) ^ attempt) :: t.backoffSleeps, t.state⟩
          else ⟨none, 1, 0, [], st⟩
      | AttemptOutcome.requestExc =>
          if attempt < maxRetries - 1 then
            let t := runRetryGo j st (attempt + 1) maxRetries rest
            ⟨t.result, t.calls + 1, t.rlSleeps,
              ((2 : ℚ) ^ attempt + j attempt) :: t.backoffSleeps, t.state⟩
          else ⟨none, 1, 0, [], st⟩
      | AttemptOutcome.otherExc =>
          if attempt < maxRetries - 1 then
            let t := runRetryGo j st (attempt + 1) maxRetries rest
            ⟨t.result, t.calls + 1, t.rlSleeps,
              ((2 : ℚ) ^ attempt) :: t.backoffSleeps, t.state⟩
          else ⟨none, 1, 0, [], st⟩
      | AttemptOutcome.apiError code =>
          if code = 4 ∧ attempt < maxRetries - 1 then
            let t := runRetryGo j (handle_rate_limit_error st) (attempt + 1)
              maxRetries rest
            ⟨t.result, t.calls + 1, t.rlSleeps + 1, t.backoffSleeps, t.state⟩
          else if code = 190 ∨ code = 102 then ⟨none, 1, 0, [], st⟩
          else if code = 100 ∨ code = 803 then ⟨none, 1, 0, [], st⟩
          else if attempt < maxRetries - 1 then
            let t := runRetryGo j st (attempt + 1) maxRetries rest
            ⟨t.result, t.calls + 1, t.rlSleeps,
              ((2 : ℚ) ^ attempt + j attempt) :: t.backoffSleeps, t.state⟩
          else ⟨none, 1, 0, [], st⟩
      | AttemptOutcome.ok payload => ⟨some payload, 1, 0, [], on_success st⟩

/-- `FacebookAnalytics._make_request_with_retry`, starting at attempt 0. -/
def make_request_with_retry (j : Nat → ℚ) (st : RateLimiterState)
    (outcomes : List AttemptOutcome) (maxRetries : Nat) : RunTrace :=
  runRetryGo j st 0 maxRetries outcomes

/-! ## The Instagram request helper (`InstagramAnalytics._make_request`)

    max_retries = 3
    for attempt in range(max_retries):
        try: ...; return response.json()
        except requests.exceptions.RequestException:
            if attempt == max_retries - 1: return None
            time.sleep(1)
-/

/-- Outcome of one attempt of `InstagramAnalytics._make_request`: a raised
`RequestException` (covering timeouts and connection errors) or a JSON
payload. -/
inductive IGOutcome where
  | exc : IGOutcome
  | ok : Nat → IGOutcome
deriving DecidableEq, Repr

/-- Trace of an `InstagramAnalytics._make_request` run: result, number of
HTTP calls, and the sleep durations between attempts. -/
structure IGTrace where
  result : Option Nat
  calls : Nat
  sleeps : List ℚ
deriving DecidableEq, Repr

/-- The loop body of `InstagramAnalytics._make_request` with its hardcoded
`max_retries = 3`. -/
def ig_request_go : Nat → List IGOutcome → IGTrace
  | _, [] => ⟨none, 0, []⟩
  | attempt, o :: rest =>
      match o with
      | IGOutcome.ok payload => ⟨some payload, 1, []⟩
      | IGOutcome.exc =>
          if attempt = 3 - 1 then ⟨none, 1, []⟩
          else
            let t := ig_request_go (attempt + 1) rest
            ⟨t.result, t.calls + 1, (1 : ℚ) :: t.sleeps⟩

/-- `InstagramAnalytics._make_request`, starting at attempt 0. -/
def ig_make_request (outcomes : List IGOutcome) : IGTrace :=
  ig_request_go 0 outcomes

/-! ## Flatness detection and synthetic enhancement
(`FacebookAnalytics.get_follower_count_trend`, lines 282-331)

`counts` is the nonempty list of per-date absolute follower counts,
`fan_adds`/`fan_removes` the accompanying delta series, and `rand i` the
`random.randint(-2, 2)` drawn for index `i`. -/

/-- Python `min(counts)` (the source only evaluates it on nonempty lists). -/
def listMin : List Int → Int
  | [] => 0
  | x :: xs => xs.foldl min x

/-- Python `max(counts)`. -/
def listMax : List Int → Int
  | [] => 0
  | x :: xs => xs.foldl max x

/-- `variation = max_count - min_count`. -/
def variation (counts : List Int) : Int := listMax counts - listMin counts

/-- `avg_count = sum(counts) / len(counts)`. -/
def avg_count (counts : List Int) : ℚ := (counts.sum : ℚ) / counts.length

/-- `variation_percentage = (variation / avg_count) * 100 if avg_count > 0
else 0`. -/
def variation_percentage (counts : List Int) : ℚ :=
  if 0 < avg_count counts then
    ((variation counts : ℚ) / avg_count counts) * 100
  else 0

/-- The enhancement trigger of line 292:
`if variation_percentage < 2 or variation < 10`. -/
def isDegenerate (counts : List Int) : Prop :=
  variation_percentage counts < 2 ∨ variation counts < 10

instance isDegenerateDecidable (counts : List Int) :
    Decidable (isDegenerate counts) :=
  inferInstanceAs (Decidable (_ ∨ _))

/-- The enhanced series built in lines 296-325: index 0 keeps the original
first count; every later index `i` takes `base_count` plus
`int(net_change * i / (len - 1))` plus the drawn jitter, clamped into
`[min_count - 5, max_count + 10]`; finally the last entry is forced back to
the original last count. -/
def enhanced_counts_list (counts fan_adds fan_removes : List Int)
    (rand : Nat → Int) : List Int :=
  let min_count := listMin counts
  let max_count := listMax counts
  let base_count := counts.headI
  let net_change := fan_adds.sum - fan_removes.sum
  let len := counts.length
  let core := (List.range len).map (fun (i : Nat) =>
    if i = 0 then base_count
    else
      let trend_change : Int :=
        if 1 < len then Int.tdiv (net_change * (i : Int)) ((len : Int) - 1)
        else 0
      let e := base_count + trend_change + rand i
      min (max e (min_count - 5)) (max_count + 10))
  match core with
  | [] => []
  | _ :: _ => core.dropLast ++ [counts.getLastD 0]

/-- The flat-or-not decision of `FacebookAnalytics.get_follower_count_trend`:
a degenerate series is replaced by the enhanced one, otherwise the original
counts are returned unmodified. -/
def fb_trend_counts (counts fan_adds fan_removes : List Int)
    (rand : Nat → Int) : List Int :=
  if isDegenerate counts then
    enhanced_counts_list counts fan_adds fan_removes rand
  else counts

/-! ## Hourly best-times aggregation

`InstagramAnalytics.get_best_times` buckets posts into a dict with keys
0..23 built upfront; a post whose timestamp fails to parse (modelled as
`hour = none`) is skipped by the per-post `except` clause, and hours are
reported in dict order 0..23.  Means are `np.mean` (exact sum / length
here), `int(...)` truncates toward zero and `round(x, 2)` is Python's
banker's rounding to two decimals. -/

/-- Floor of a rational (den is positive, so flooring divide works). -/
def ratFloor (q : ℚ) : Int := Int.fdiv q.num q.den

/-- Python `round` to the nearest integer, ties to even. -/
def roundHalfEven (q : ℚ) : Int :=
  let f := ratFloor q
  if q - f < 1 / 2 then f
  else if 1 / 2 < q - f then f + 1
  else if f % 2 = 0 then f else f + 1

/-- Python `round(x, 2)`. -/
def round2 (q : ℚ) : ℚ := (roundHalfEven (q * 100) : ℚ) / 100

/-- Python `int(x)` on a rational: truncation toward zero. -/
def ratTrunc (q : ℚ) : Int := Int.tdiv q.num q.den

/-- `np.mean` of an integer list as an exact rational. -/
def intListMean (l : List Int) : ℚ := (l.sum : ℚ) / l.length

/-- An Instagram post as consumed by `get_best_times`: `hour` is the parse
result of `post['timestamp']` (`none` when parsing raised, in which case the
post is skipped), plus its engagement and reach numbers. -/
structure IGPost where
  hour : Option Nat
  engagement : Int
  reach : Int
deriving DecidableEq, Repr

/-- One `hourly_data[hour]` entry: the accumulated engagement and reach
lists and the post counter. -/
structure IGBucket where
  engagement : List Int
  reach : List Int
  posts : Nat
deriving DecidableEq, Repr

/-- The per-post loop body: a parsed hour appends to that hour's bucket
(hours outside the dict's 0..23 key range would raise a `KeyError` and be
skipped by the same `except`). -/
def igAddPost (bs : Nat → IGBucket) (p : IGPost) : Nat → IGBucket :=
  match p.hour with
  | none => bs
  | some h =>
      if h < 24 then
        fun h2 =>
          if h2 = h then
            ⟨(bs h).engagement ++ [p.engagement], (bs h).reach ++ [p.reach],
              (bs h).posts + 1⟩
          else bs h2
      else bs

/-- `hourly_data` after the bucketing loop of
`InstagramAnalytics.get_best_times`. -/
def igHourlyData (posts : List IGPost) : Nat → IGBucket :=
  posts.foldl igAddPost (fun _ => ⟨[], [], 0⟩)

/-- One value of the Instagram `best_times` dict. -/
structure IGStats where
  engagement_rate : ℚ
  post_count : Nat
  avg_reach : Int
  avg_engagement : Int
deriving DecidableEq, Repr

instance : Inhabited IGStats := ⟨⟨0, 0, 0, 0⟩⟩

/-- The per-hour statistics of `InstagramAnalytics.get_best_times`: all-zero
when the bucket is empty, otherwise rate `round(avg_e / avg_r * 100, 2)`
(0 unless `avg_reach > 0`) with truncated integer means. -/
def igStats (b : IGBucket) : IGStats :=
  if b.engagement ≠ [] then
    let avg_engagement := intListMean b.engagement
    let avg_reach := intListMean b.reach
    let engagement_rate :=
      if 0 < avg_reach then round2 (avg_engagement / avg_reach * 100) else 0
    ⟨engagement_rate, b.posts, ratTrunc avg_reach, ratTrunc avg_engagement⟩
  else ⟨0, 0, 0, 0⟩

/-- `InstagramAnalytics.get_best_times` as the ordered key-value list of its
returned dict (keys 0..23 in insertion order). -/
def ig_get_best_times (posts : List IGPost) : List (Nat × IGStats) :=
  (List.range 24).map (fun h => (h, igStats (igHourlyData posts h)))

/-- A Facebook post as consumed by `FacebookAnalytics.get_best_times`:
`hour` is the parse result of `post['created_time']` and `engagement` its
precomputed engagement count. -/
structure FBPost where
  hour : Option Nat
  engagement : Int
deriving DecidableEq, Repr

/-- One Facebook `hourly_data[hour]` entry. -/
structure FBBucket where
  engagement : List Int
  posts : Nat
deriving DecidableEq, Repr

/-- The per-post loop body of the Facebook aggregator. -/
def fbAddPost (bs : Nat → FBBucket) (p : FBPost) : Nat → FBBucket :=
  match p.hour with
  | none => bs
  | some h =>
      if h < 24 then
        fun h2 =>
          if h2 = h then
            ⟨(bs h).engagement ++ [p.engagement], (bs h).posts + 1⟩
          else bs h2
      else bs

/-- `hourly_data` after the bucketing loop of
`FacebookAnalytics.get_best_times`. -/
def fbHourlyData (posts : List FBPost) : Nat → FBBucket :=
  posts.foldl fbAddPost (fun _ => ⟨[], 0⟩)

/-- `total_posts = sum(data['posts'] for data in hourly_data.values())`. -/
def fbTotalPosts (posts : List FBPost) : Nat :=
  ((List.range 24).map (fun h => (fbHourlyData posts h).posts)).sum

/-- `total_engagement = sum(sum(data['engagement']) for data in
hourly_data.values() if data['engagement'])`. -/
def fbTotalEngagement (posts : List FBPost) : Int :=
  ((List.range 24).map (fun h =>
    if (fbHourlyData posts h).engagement ≠ []
    then (fbHourlyData posts h).engagement.sum else 0)).sum

/-- One value of the Facebook `best_times` dict. -/
structure FBStats where
  engagement_rate : ℚ
  post_count : Nat
  post_frequency : ℚ
  avg_engagement : Int
deriving DecidableEq, Repr

instance : Inhabited FBStats := ⟨⟨0, 0, 0, 0⟩⟩

/-- The per-hour statistics of `FacebookAnalytics.get_best_times`: the
reported `engagement_rate` is the bucket's share of the total engagement,
`round((sum(bucket) / max(1, total_engagement)) * 100, 2)`. -/
def fbStats (total_posts : Nat) (total_engagement : Int) (b : FBBucket) :
    FBStats :=
  if b.engagement ≠ [] then
    let avg_engagement := intListMean b.engagement
    let post_frequency := ((b.posts : ℚ) / ((max 1 total_posts : Nat) : ℚ)) * 100
    let engagement_share :=
      ((b.engagement.sum : ℚ) / ((max 1 total_engagement : Int) : ℚ)) * 100
    ⟨round2 engagement_share, b.posts, round2 post_frequency,
      ratTrunc avg_engagement⟩
  else ⟨0, 0, 0, 0⟩

/-- `FacebookAnalytics.get_best_times` as the ordered key-value list of its
returned dict. -/
def fb_get_best_times (posts : List FBPost) : List (Nat × FBStats) :=
  (List.range 24).map (fun h =>
    (h, fbStats (fbTotalPosts posts) (fbTotalEngagement posts)
      (fbHourlyData posts h)))

/-- The sub-list of Instagram posts landing in bucket `h`. -/
def igPostsAt (posts : List IGPost) (h : Nat) : List IGPost :=
  posts.filter (fun p => decide (p.hour = some h))

/-- The sub-list of Facebook posts landing in bucket `h`. -/
def fbPostsAt (posts : List FBPost) (h : Nat) : List FBPost :=
  posts.filter (fun p => decide (p.hour = some h))

/-! ## Media item processing (`InstagramAnalytics._process_media_item`) -/

/-- The metric values extracted from a media item's `insights.data` (a
metric missing from the response, or having an empty `values` list, is
absent from the dict, modelled as `none`). -/
structure MediaMetrics where
  reach : Option Int
  likes : Option Int
  comments : Option Int
  shares : Option Int
  saved : Option Int
deriving DecidableEq, Repr

/-- The fields of the dict built by `_process_media_item` (the identifying
strings and the permalink lookup are not modelled). -/
structure ProcessedMediaItem where
  engagement_rate : ℚ
  reach : Int
  engagement : Int
  impressions : Int
  likes : Int
  comments : Int
  shares : Int
  saved : Int
deriving DecidableEq, Repr

/-- `InstagramAnalytics._process_media_item`: items without insights data
give `None`; otherwise `reach = max(metrics.get('reach', 1), 1)`, the
engagement counters default to 0, `engagement` is their sum, and
`engagement_rate = round((engagement / reach) * 100, 2)`; `impressions`
reuses `reach`. -/
def process_media_item (insights : Option MediaMetrics) :
    Option ProcessedMediaItem :=
  match insights with
  | none => none
  | some m =>
      let reach := max (m.reach.getD 1) 1
      let likes := m.likes.getD 0
      let comments := m.comments.getD 0
      let shares := m.shares.getD 0
      let saved := m.saved.getD 0
      let engagement := likes + comments + shares + saved
      let engagement_rate := round2 (((engagement : ℚ) / (reach : ℚ)) * 100)
      some ⟨engagement_rate, reach, engagement, reach, likes, comments,
        shares, saved⟩

lemma actualCountsLoop_acc (l : List Int) :
    ∀ (acc : List Int) (rt : Int),
      actualCountsLoop l acc rt = actualCountsLoop l [] rt ++ acc := by
  induction l with
  | nil => intro acc rt; simp [actualCountsLoop]
  | cons c rest ih =>
      intro acc rt
      rw [actualCountsLoop, actualCountsLoop, ih (rt :: acc), ih [rt]]
      simp

lemma actualCountsLoop_append (l₁ l₂ : List Int) (acc : List Int) (rt : Int) :
    actualCountsLoop (l₁ ++ l₂) acc rt =
      actualCountsLoop l₂ (actualCountsLoop l₁ acc rt) (rt - l₁.sum) := by
  induction l₁ generalizing acc rt with
  | nil => simp [actualCountsLoop]
  | cons c rest ih =>
      simp only [List.cons_append, actualCountsLoop, List.sum_cons, List.append_eq]
      rw [ih, sub_sub]

lemma trend_counts_cons (d : Int) (ds : List Int) (c : Int) :
    get_follower_count_trend_counts (d :: ds) c =
      (c - ds.sum) :: get_follower_count_trend_counts ds c := by
  unfold get_follower_count_trend_counts
  rw [List.reverse_cons, actualCountsLoop_append]
  rw [actualCountsLoop, actualCountsLoop]
  rw [actualCountsLoop_acc]
  simp [List.sum_reverse]

/-- Closed form of the reverse walk: entry `i` is the current total minus all
deltas strictly after position `i`. -/
lemma trend_counts_closed (deltas : List Int) (c : Int) :
    get_follower_count_trend_counts deltas c =
      (List.range deltas.length).map (fun i => c - (deltas.drop (i + 1)).sum) := by
  induction deltas with
  | nil => rfl
  | cons d ds ih =>
      rw [trend_counts_cons, ih]
      rw [List.length_cons, List.range_succ_eq_map]
      simp only [List.map_cons, List.map_map]
      congr 1

lemma trend_counts_length (deltas : List Int) (c : Int) :
    (get_follower_count_trend_counts deltas c).length = deltas.length := by
  simp [trend_counts_closed]

lemma trend_counts_getLast (deltas : List Int) (c : Int) (h : deltas ≠ []) :
    (get_follower_count_trend_counts deltas c).getLast? = some c := by
  obtain ⟨m, hm⟩ : ∃ m, deltas.length = m + 1 := by
    cases hl : deltas.length with
    | zero => exact absurd (List.length_eq_zero.mp hl) h
    | succ m => exact ⟨m, rfl⟩
  rw [trend_counts_closed, hm, List.range_succ, List.map_append]
  rw [List.map_singleton, List.getLast?_concat]
  have hd : deltas.drop (m + 1) = [] := by
    rw [← hm]; exact List.drop_length deltas
  simp [hd]

lemma trend_counts_getD (deltas : List Int) (c : Int) (i : Nat)
    (h : i < deltas.length) :
    (get_follower_count_trend_counts deltas c).getD i 0 =
      c - (deltas.drop (i + 1)).sum := by
  rw [trend_counts_closed deltas c,
    List.getD_eq_getElem _ 0 (by simpa using h), List.getElem_map,
    List.getElem_range]

/-- C1: for deltas `[d0..dn]` (oldest to newest) and known current absolute
total `c`, the series reconstructed by the reverse walk of
`get_follower_count_trend` has the same length as the delta list, its last
entry equals `c`, and every earlier entry satisfies
`series[i] = series[i+1] - d[i+1]`. -/
theorem delta_reconstruction_correct (deltas : List Int) (c : Int)
    (hne : deltas ≠ []) :
    (get_follower_count_trend_counts deltas c).length = deltas.length ∧
    (get_follower_count_trend_counts deltas c).getLast? = some c ∧
    ∀ i, i + 1 < deltas.length →
      (get_follower_count_trend_counts deltas c).getD i 0 =
        (get_follower_count_trend_counts deltas c).getD (i + 1) 0 -
          deltas.getD (i + 1) 0 := by
  refine ⟨trend_counts_length deltas c, trend_counts_getLast deltas c hne, ?_⟩
  intro i hi
  rw [trend_counts_getD deltas c i (by omega),
    trend_counts_getD deltas c (i + 1) hi,
    List.getD_eq_getElem _ 0 hi,
    List.drop_eq_getElem_cons hi, List.sum_cons]
  ring

/-- Witness for C1 at deltas `[1, 2, 3]` and current total `10`:
the reconstruction is `[5, 7, 10]`. -/
theorem delta_reconstruction_correct_witness :
    (([1, 2, 3] : List Int) ≠ []) ∧
    ((get_follower_count_trend_counts [1, 2, 3] 10).length = 3 ∧
     (get_follower_count_trend_counts [1, 2, 3] 10).getLast? = some 10 ∧
     ∀ i, i + 1 < ([1, 2, 3] : List Int).length →
       (get_follower_count_trend_counts [1, 2, 3] 10).getD i 0 =
         (get_follower_count_trend_counts [1, 2, 3] 10).getD (i + 1) 0 -
           ([1, 2, 3] : List Int).getD (i + 1) 0) :=
  ⟨by decide, delta_reconstruction_correct [1, 2, 3] 10 (by decide)⟩

/-- C3 counterexample: on deltas `[+5, -2, +3]` with current total `100` the
reverse-walk algorithm of the source yields `[99, 97, 100]`, not the
`[94, 99, 97]` stated in the claim. -/
theorem scenario_reconstruction_counterexample :
    get_follower_count_trend_counts [5, -2, 3] 100 = [99, 97, 100] ∧
    get_follower_count_trend_counts [5, -2, 3] 100 ≠ [94, 99, 97] := by
  constructor <;> decide

/-- C3 (amended): for deltas `[+5, -2, +3]` on dates `[d1, d2, d3]` and known
current total `100`, the exact reverse-walk algorithm reconstructs the series
`[d1: 99, d2: 97, d3: 100]`. -/
theorem scenario_reconstruction_amended :
    get_follower_count_trend_counts [5, -2, 3] 100 = [99, 97, 100] := by
  decide

/-- C2: an embedded application error with a terminal auth code (190 invalid
token, 102 session expired) on the first attempt makes
`_make_request_with_retry` return `None` at once: one HTTP call, no
rate-limit backoff, no plain backoff sleep, limiter state untouched,
regardless of how many retries remain. -/
theorem auth_error_no_retry (j : Nat → ℚ) (st : RateLimiterState) (code : Int)
    (rest : List AttemptOutcome) (maxRetries : Nat) (hmax : 0 < maxRetries)
    (hcode : code = 190 ∨ code = 102) :
    make_request_with_retry j st (AttemptOutcome.apiError code :: rest)
      maxRetries = ⟨none, 1, 0, [], st⟩ := by
  have hc4 : ¬(code = 4 ∧ 0 < maxRetries - 1) := by
    rcases hcode with h | h <;> simp [h]
  simp only [make_request_with_retry, runRetryGo]
  rw [if_neg (by omega), if_neg hc4, if_pos hcode]

/-- Witness for C2: auth code 190 on attempt 0 of 3. -/
theorem auth_error_no_retry_witness :
    0 < 3 ∧ ((190 : Int) = 190 ∨ (190 : Int) = 102) ∧
    make_request_with_retry (fun _ => 0) ⟨0, 1⟩
      (AttemptOutcome.apiError 190 :: []) 3 = ⟨none, 1, 0, [], ⟨0, 1⟩⟩ :=
  ⟨by decide, Or.inl rfl,
    auth_error_no_retry (fun _ => 0) ⟨0, 1⟩ 190 [] 3 (by decide) (Or.inl rfl)⟩

/-- C6 counterexample: on the state with `rate_limit_errors = 0` and
`min_interval = 2`, the success branch leaves the state unchanged, whereas
the claim predicts `min_interval` becomes `max 1 (2 * 0.9) = 1.8`. -/
theorem on_success_zero_counterexample :
    on_success ⟨0, 2⟩ = ⟨0, 2⟩ ∧
    (on_success ⟨0, 2⟩).min_interval ≠ max 1 ((2 : ℚ) * (9 / 10)) := by
  refine ⟨by decide, ?_⟩
  have h : max (1 : ℚ) ((2 : ℚ) * (9 / 10)) = 9 / 5 := by
    rw [max_eq_right (by norm_num : (1 : ℚ) ≤ 2 * (9 / 10))]
    norm_num
  have h2 : on_success ⟨0, 2⟩ = ⟨0, 2⟩ := by decide
  rw [h2, h]
  norm_num

/-- C6 (amended): the success branch decays the rate limiter only when the
consecutive error count is positive — it then decrements the count (floored
at 0) and multiplies `min_interval` by 0.9 floored at 1s — and leaves the
state unchanged when the count is 0; in either case, provided `min_interval`
was at least 1s, it is non-increasing and stays at least 1s. -/
theorem on_success_amended (st : RateLimiterState) (hmi : 1 ≤ st.min_interval) :
    (0 < st.rate_limit_errors →
      on_success st = ⟨st.rate_limit_errors - 1,
        max 1 (st.min_interval * (9 / 10))⟩) ∧
    (st.rate_limit_errors = 0 → on_success st = st) ∧
    (on_success st).min_interval ≤ st.min_interval ∧
    1 ≤ (on_success st).min_interval := by
  refine ⟨fun h => ?_, fun h => ?_, ?_, ?_⟩
  · simp [on_success, h, Nat.max_eq_right]
  · simp [on_success, h]
  · by_cases h : 0 < st.rate_limit_errors
    · simp only [on_success, if_pos h]
      exact max_le hmi (by nlinarith)
    · simp [on_success, h]
  · by_cases h : 0 < st.rate_limit_errors
    · simp only [on_success, if_pos h]
      exact le_max_left 1 _
    · simp [on_success, h, hmi]

/-- Witness for C6 (amended) at the state `(2 errors, 3s)`. -/
theorem on_success_amended_witness :
    (1 : ℚ) ≤ (RateLimiterState.mk 2 3).min_interval ∧
    ((0 < (RateLimiterState.mk 2 3).rate_limit_errors →
      on_success ⟨2, 3⟩ = ⟨(RateLimiterState.mk 2 3).rate_limit_errors - 1,
        max 1 ((RateLimiterState.mk 2 3).min_interval * (9 / 10))⟩) ∧
    ((RateLimiterState.mk 2 3).rate_limit_errors = 0 →
      on_success ⟨2, 3⟩ = ⟨2, 3⟩) ∧
    (on_success ⟨2, 3⟩).min_interval ≤ (RateLimiterState.mk 2 3).min_interval ∧
    1 ≤ (on_success ⟨2, 3⟩).min_interval) :=
  ⟨by norm_num, on_success_amended ⟨2, 3⟩ (by norm_num)⟩

lemma runRetryGo_timeout_exhaust (j : Nat → ℚ) (st : RateLimiterState) :
    ∀ (k attempt maxRetries : Nat), attempt + k = maxRetries → 0 < k →
      (runRetryGo j st attempt maxRetries
          (List.replicate k AttemptOutcome.timeoutExc)).result = none ∧
      (runRetryGo j st attempt maxRetries
          (List.replicate k AttemptOutcome.timeoutExc)).calls = k := by
  intro k
  induction k with
  | zero => intro attempt maxRetries _ h0; exact absurd h0 (by omega)
  | succ k ih =>
      intro attempt maxRetries hsum _
      rw [List.replicate_succ]
      simp only [runRetryGo]
      rw [if_neg (by omega)]
      rcases Nat.eq_zero_or_pos k with hk | hk
      · subst hk
        rw [if_neg (by omega)]
        exact ⟨rfl, rfl⟩
      · rw [if_pos (by omega)]
        have := ih (attempt + 1) maxRetries (by omega) hk
        exact ⟨this.1, by simp [this.2]⟩

/-- C7 counterexample: `InstagramAnalytics._make_request` retries a request
exception at attempt 1 (retries remaining) after a fixed 1-second sleep, not
after `2 ^ 1 = 2` seconds: three failing attempts sleep `[1, 1]`. -/
theorem network_backoff_counterexample :
    ig_make_request [IGOutcome.exc, IGOutcome.exc, IGOutcome.exc] =
      ⟨none, 3, [1, 1]⟩ ∧
    ((1 : ℚ) ≠ 2 ^ 1) := by
  refine ⟨by decide, by norm_num⟩

lemma runRetryGo_timeout_step (j : Nat → ℚ) (st : RateLimiterState)
    (rest : List AttemptOutcome) (a maxRetries : Nat) (h : a + 1 < maxRetries) :
    runRetryGo j st a maxRetries (AttemptOutcome.timeoutExc :: rest) =
      ⟨(runRetryGo j st (a + 1) maxRetries rest).result,
       (runRetryGo j st (a + 1) maxRetries rest).calls + 1,
       (runRetryGo j st (a + 1) maxRetries rest).rlSleeps,
       ((2 : ℚ) ^ a) :: (runRetryGo j st (a + 1) maxRetries rest).backoffSleeps,
       (runRetryGo j st (a + 1) maxRetries rest).state⟩ := by
  simp only [runRetryGo]
  rw [if_neg (by omega), if_pos (by omega)]

lemma runRetryGo_requestExc_step (j : Nat → ℚ) (st : RateLimiterState)
    (rest : List AttemptOutcome) (a maxRetries : Nat) (h : a + 1 < maxRetries) :
    runRetryGo j st a maxRetries (AttemptOutcome.requestExc :: rest) =
      ⟨(runRetryGo j st (a + 1) maxRetries rest).result,
       (runRetryGo j st (a + 1) maxRetries rest).calls + 1,
       (runRetryGo j st (a + 1) maxRetries rest).rlSleeps,
       ((2 : ℚ) ^ a + j a) ::
         (runRetryGo j st (a + 1) maxRetries rest).backoffSleeps,
       (runRetryGo j st (a + 1) maxRetries rest).state⟩ := by
  simp only [runRetryGo]
  rw [if_neg (by omega), if_pos (by omega)]

lemma ig_request_exc_step (b : Nat) (igRest : List IGOutcome) (hb : b + 1 < 3) :
    ig_request_go b (IGOutcome.exc :: igRest) =
      ⟨(ig_request_go (b + 1) igRest).result,
       (ig_request_go (b + 1) igRest).calls + 1,
       (1 : ℚ) :: (ig_request_go (b + 1) igRest).sleeps⟩ := by
  simp only [ig_request_go]
  rw [if_neg (by omega)]

/-- C7 (amended): in the Facebook client a timeout at attempt `a` with
retries remaining sleeps exactly `2 ^ a` seconds and retries, a connection
(request) error sleeps `2 ^ a` plus the drawn jitter and retries, and a full
run of network failures returns the failure value `None` after exactly
`maxRetries` HTTP calls; the Instagram client instead sleeps a fixed 1 second
before each retry and returns `None` after its 3 bounded attempts. -/
theorem network_backoff_amended (j : Nat → ℚ) (st : RateLimiterState)
    (rest : List AttemptOutcome) (igRest : List IGOutcome)
    (a b maxRetries : Nat) (ha : a + 1 < maxRetries) (hb : b + 1 < 3)
    (hm : 0 < maxRetries) :
    (runRetryGo j st a maxRetries (AttemptOutcome.timeoutExc :: rest) =
      ⟨(runRetryGo j st (a + 1) maxRetries rest).result,
       (runRetryGo j st (a + 1) maxRetries rest).calls + 1,
       (runRetryGo j st (a + 1) maxRetries rest).rlSleeps,
       ((2 : ℚ) ^ a) :: (runRetryGo j st (a + 1) maxRetries rest).backoffSleeps,
       (runRetryGo j st (a + 1) maxRetries rest).state⟩) ∧
    (runRetryGo j st a maxRetries (AttemptOutcome.requestExc :: rest) =
      ⟨(runRetryGo j st (a + 1) maxRetries rest).result,
       (runRetryGo j st (a + 1) maxRetries rest).calls + 1,
       (runRetryGo j st (a + 1) maxRetries rest).rlSleeps,
       ((2 : ℚ) ^ a + j a) ::
         (runRetryGo j st (a + 1) maxRetries rest).backoffSleeps,
       (runRetryGo j st (a + 1) maxRetries rest).state⟩) ∧
    (make_request_with_retry j st
        (List.replicate maxRetries AttemptOutcome.timeoutExc)
        maxRetries).result = none ∧
    (make_request_with_retry j st
        (List.replicate maxRetries AttemptOutcome.timeoutExc)
        maxRetries).calls = maxRetries ∧
    (ig_request_go b (IGOutcome.exc :: igRest) =
      ⟨(ig_request_go (b + 1) igRest).result,
       (ig_request_go (b + 1) igRest).calls + 1,
       (1 : ℚ) :: (ig_request_go (b + 1) igRest).sleeps⟩) ∧
    ig_make_request (List.replicate 3 IGOutcome.exc) = ⟨none, 3, [1, 1]⟩ := by
  have hex := runRetryGo_timeout_exhaust j st maxRetries 0 maxRetries
    (by omega) hm
  exact ⟨runRetryGo_timeout_step j st rest a maxRetries ha,
    runRetryGo_requestExc_step j st rest a maxRetries ha,
    hex.1, hex.2, ig_request_exc_step b igRest hb, by decide⟩

/-- Witness for C7 (amended): attempt 0 of 3 on both clients, jitter 1/2. -/
theorem network_backoff_amended_witness :
    (0 + 1 < 3 ∧ 0 + 1 < 3 ∧ 0 < 3) ∧
    ((runRetryGo (fun _ => 1 / 2) ⟨0, 1⟩ 0 3 [AttemptOutcome.timeoutExc] =
      ⟨(runRetryGo (fun _ => 1 / 2) ⟨0, 1⟩ (0 + 1) 3 []).result,
       (runRetryGo (fun _ => 1 / 2) ⟨0, 1⟩ (0 + 1) 3 []).calls + 1,
       (runRetryGo (fun _ => 1 / 2) ⟨0, 1⟩ (0 + 1) 3 []).rlSleeps,
       ((2 : ℚ) ^ 0) ::
         (runRetryGo (fun _ => 1 / 2) ⟨0, 1⟩ (0 + 1) 3 []).backoffSleeps,
       (runRetryGo (fun _ => 1 / 2) ⟨0, 1⟩ (0 + 1) 3 []).state⟩) ∧
    (runRetryGo (fun _ => 1 / 2) ⟨0, 1⟩ 0 3 [AttemptOutcome.requestExc] =
      ⟨(runRetryGo (fun _ => 1 / 2) ⟨0, 1⟩ (0 + 1) 3 []).result,
       (runRetryGo (fun _ => 1 / 2) ⟨0, 1⟩ (0 + 1) 3 []).calls + 1,
       (runRetryGo (fun _ => 1 / 2) ⟨0, 1⟩ (0 + 1) 3 []).rlSleeps,
       ((2 : ℚ) ^ 0 + (fun _ => (1 : ℚ) / 2) 0) ::
         (runRetryGo (fun _ => 1 / 2) ⟨0, 1⟩ (0 + 1) 3 []).backoffSleeps,
       (runRetryGo (fun _ => 1 / 2) ⟨0, 1⟩ (0 + 1) 3 []).state⟩) ∧
    (make_request_with_retry (fun _ => 1 / 2) ⟨0, 1⟩
        (List.replicate 3 AttemptOutcome.timeoutExc) 3).result = none ∧
    (make_request_with_retry (fun _ => 1 / 2) ⟨0, 1⟩
        (List.replicate 3 AttemptOutcome.timeoutExc) 3).calls = 3 ∧
    (ig_request_go 0 (IGOutcome.exc :: []) =
      ⟨(ig_request_go (0 + 1) []).result,
       (ig_request_go (0 + 1) []).calls + 1,
       (1 : ℚ) :: (ig_request_go (0 + 1) []).sleeps⟩) ∧
    ig_make_request (List.replicate 3 IGOutcome.exc) = ⟨none, 3, [1, 1]⟩) :=
  ⟨⟨by decide, by decide, by decide⟩,
    network_backoff_amended (fun _ => 1 / 2) ⟨0, 1⟩ [] [] 0 0 3
      (by decide) (by decide) (by decide)⟩

/-- C4: flatness classification is strict on both thresholds: the trigger is
exactly `variation_percentage < 2 ∨ variation < 10`; a series with
`variation = 10` and `variation_percentage = 2` is not degenerate and is
passed through `get_follower_count_trend` unmodified, while `variation = 9`
is degenerate. -/
theorem flatness_strict_thresholds (counts c10 c9 fa fr : List Int)
    (rand : Nat → Int)
    (h10 : variation c10 = 10) (hvp : variation_percentage c10 = 2)
    (h9 : variation c9 = 9) :
    (isDegenerate counts ↔
      variation_percentage counts < 2 ∨ variation counts < 10) ∧
    (¬isDegenerate c10 ∧ fb_trend_counts c10 fa fr rand = c10) ∧
    isDegenerate c9 := by
  have hnd : ¬isDegenerate c10 := by
    intro hd
    rcases hd with h | h
    · rw [hvp] at h; exact absurd h (by norm_num)
    · rw [h10] at h; exact absurd h (by norm_num)
  refine ⟨Iff.rfl, ⟨hnd, ?_⟩, Or.inr (by rw [h9]; norm_num)⟩
  unfold fb_trend_counts
  rw [if_neg hnd]

unseal Rat.mul Rat.inv in
/-- Witness for C4 at the boundary series `[495, 505]` (variation 10, mean
500, hence variation percentage exactly 2) and `[495, 504]` (variation 9). -/
theorem flatness_strict_thresholds_witness :
    (variation [495, 505] = 10 ∧ variation_percentage [495, 505] = 2 ∧
      variation [495, 504] = 9) ∧
    ((isDegenerate [1, 2] ↔
        variation_percentage [1, 2] < 2 ∨ variation [1, 2] < 10) ∧
      (¬isDegenerate [495, 505] ∧
        fb_trend_counts [495, 505] [3] [1] (fun _ => 2) = [495, 505]) ∧
      isDegenerate [495, 504]) :=
  ⟨by refine ⟨by decide, by decide, by decide⟩,
    flatness_strict_thresholds [1, 2] [495, 505] [495, 504] [3] [1]
      (fun _ => 2) (by decide) (by decide) (by decide)⟩

lemma getLast?_eq_getLastD (t : List Int) : ∀ (a d : Int),
    (a :: t).getLast? = some ((a :: t).getLastD d) := by
  induction t with
  | nil => intro a d; rfl
  | cons b t2 ih =>
      intro a d
      rw [List.getLast?_cons_cons, ih b a]
      rfl

lemma enhanced_anchors (counts fa fr : List Int) (rand : Nat → Int)
    (hlen : 2 ≤ counts.length) :
    (enhanced_counts_list counts fa fr rand).head? = counts.head? ∧
    (enhanced_counts_list counts fa fr rand).getLast? = counts.getLast? := by
  match counts, hlen with
  | a :: b :: l, _ =>
    simp only [enhanced_counts_list, List.length_cons, List.range_succ_eq_map,
      List.map_cons, List.map_map]
    refine ⟨by simp, ?_⟩
    rw [List.getLast?_concat]
    exact (getLast?_eq_getLastD (b :: l) a 0).symm

/-- C5: for any degenerate input series of length at least 2 and any jitter
values, the enhanced series returned by `get_follower_count_trend` keeps the
original first and last entries exactly. -/
theorem enhancement_anchoring (counts fa fr : List Int) (rand : Nat → Int)
    (hlen : 2 ≤ counts.length) (hdeg : isDegenerate counts) :
    (fb_trend_counts counts fa fr rand).head? = counts.head? ∧
    (fb_trend_counts counts fa fr rand).getLast? = counts.getLast? := by
  unfold fb_trend_counts
  rw [if_pos hdeg]
  exact enhanced_anchors counts fa fr rand hlen

unseal Rat.mul Rat.inv in
/-- Witness for C5 at the flat series `[7, 7, 7]` with jitter 1: the enhanced
series is `[7, 8, 7]`, anchored at both ends. -/
theorem enhancement_anchoring_witness :
    (2 ≤ ([7, 7, 7] : List Int).length ∧ isDegenerate [7, 7, 7]) ∧
    ((fb_trend_counts [7, 7, 7] [] [] (fun _ => 1)).head? =
        ([7, 7, 7] : List Int).head? ∧
      (fb_trend_counts [7, 7, 7] [] [] (fun _ => 1)).getLast? =
        ([7, 7, 7] : List Int).getLast?) :=
  ⟨⟨by decide, by decide⟩,
    enhancement_anchoring [7, 7, 7] [] [] (fun _ => 1) (by decide) (by decide)⟩

lemma igHourlyData_foldl (posts : List IGPost) (h : Nat) (hh : h < 24) :
    ∀ bs : Nat → IGBucket,
      (posts.foldl igAddPost bs) h =
        ⟨(bs h).engagement ++ (igPostsAt posts h).map IGPost.engagement,
         (bs h).reach ++ (igPostsAt posts h).map IGPost.reach,
         (bs h).posts + (igPostsAt posts h).length⟩ := by
  induction posts with
  | nil => intro bs; simp [igPostsAt]
  | cons p rest ih =>
      intro bs
      rw [List.foldl_cons, ih (igAddPost bs p)]
      by_cases hp : p.hour = some h
      · have hstep : igAddPost bs p h =
            ⟨(bs h).engagement ++ [p.engagement], (bs h).reach ++ [p.reach],
              (bs h).posts + 1⟩ := by
          simp [igAddPost, hp, hh]
        rw [hstep]
        simp [igPostsAt, List.filter_cons, hp]
        omega
      · have hstep : igAddPost bs p h = bs h := by
          rcases hq : p.hour with _ | h2
          · simp [igAddPost, hq]
          · rw [hq] at hp
            have hne : ¬h = h2 := by intro he; exact hp (by rw [he])
            by_cases h24 : h2 < 24
            · simp [igAddPost, hq, h24, hne]
            · simp [igAddPost, hq, h24]
        rw [hstep]
        simp [igPostsAt, List.filter_cons, hp]

/-- For a valid hour key, the loop-built bucket holds exactly the engagement
and reach values of the posts whose parsed hour is `h`, in order. -/
lemma igHourlyData_eq (posts : List IGPost) (h : Nat) (hh : h < 24) :
    igHourlyData posts h =
      ⟨(igPostsAt posts h).map IGPost.engagement,
       (igPostsAt posts h).map IGPost.reach,
       (igPostsAt posts h).length⟩ := by
  have := igHourlyData_foldl posts h hh (fun _ => ⟨[], [], 0⟩)
  simpa [igHourlyData] using this

lemma fbHourlyData_foldl (posts : List FBPost) (h : Nat) (hh : h < 24) :
    ∀ bs : Nat → FBBucket,
      (posts.foldl fbAddPost bs) h =
        ⟨(bs h).engagement ++ (fbPostsAt posts h).map FBPost.engagement,
         (bs h).posts + (fbPostsAt posts h).length⟩ := by
  induction posts with
  | nil => intro bs; simp [fbPostsAt]
  | cons p rest ih =>
      intro bs
      rw [List.foldl_cons, ih (fbAddPost bs p)]
      by_cases hp : p.hour = some h
      · have hstep : fbAddPost bs p h =
            ⟨(bs h).engagement ++ [p.engagement], (bs h).posts + 1⟩ := by
          simp [fbAddPost, hp, hh]
        rw [hstep]
        simp [fbPostsAt, List.filter_cons, hp]
        omega
      · have hstep : fbAddPost bs p h = bs h := by
          rcases hq : p.hour with _ | h2
          · simp [fbAddPost, hq]
          · rw [hq] at hp
            have hne : ¬h = h2 := by intro he; exact hp (by rw [he])
            by_cases h24 : h2 < 24
            · simp [fbAddPost, hq, h24, hne]
            · simp [fbAddPost, hq, h24]
        rw [hstep]
        simp [fbPostsAt, List.filter_cons, hp]

/-- Facebook analogue of `igHourlyData_eq`. -/
lemma fbHourlyData_eq (posts : List FBPost) (h : Nat) (hh : h < 24) :
    fbHourlyData posts h =
      ⟨(fbPostsAt posts h).map FBPost.engagement,
       (fbPostsAt posts h).length⟩ := by
  have := fbHourlyData_foldl posts h hh (fun _ => ⟨[], 0⟩)
  simpa [fbHourlyData] using this

/-- C8: both `get_best_times` variants return exactly the 24 keys 0..23 for
every input post list (the empty list included), and any hour whose bucket
receives no post is present with all-zero statistics. -/
theorem hourly_completeness (igPosts : List IGPost) (fbPosts : List FBPost)
    (h : Nat) (hh : h < 24)
    (hig : ∀ p ∈ igPosts, p.hour ≠ some h)
    (hfb : ∀ p ∈ fbPosts, p.hour ≠ some h) :
    (ig_get_best_times igPosts).map Prod.fst = List.range 24 ∧
    (ig_get_best_times igPosts).length = 24 ∧
    (fb_get_best_times fbPosts).map Prod.fst = List.range 24 ∧
    (fb_get_best_times fbPosts).length = 24 ∧
    (h, (⟨0, 0, 0, 0⟩ : IGStats)) ∈ ig_get_best_times igPosts ∧
    (h, (⟨0, 0, 0, 0⟩ : FBStats)) ∈ fb_get_best_times fbPosts := by
  refine ⟨?_, by simp [ig_get_best_times], ?_, by simp [fb_get_best_times],
    ?_, ?_⟩
  · rw [ig_get_best_times, List.map_map]
    exact List.map_id _
  · rw [fb_get_best_times, List.map_map]
    exact List.map_id _
  · have hempty : igPostsAt igPosts h = [] := by
      simp only [igPostsAt, List.filter_eq_nil_iff]
      intro p hp
      simpa using hig p hp
    have hb := igHourlyData_eq igPosts h hh
    rw [hempty] at hb
    have hz : igStats (igHourlyData igPosts h) = ⟨0, 0, 0, 0⟩ := by
      rw [hb]; rfl
    have hmem : (h, igStats (igHourlyData igPosts h)) ∈
        ig_get_best_times igPosts :=
      List.mem_map_of_mem _ (List.mem_range.mpr hh)
    rwa [hz] at hmem
  · have hempty : fbPostsAt fbPosts h = [] := by
      simp only [fbPostsAt, List.filter_eq_nil_iff]
      intro p hp
      simpa using hfb p hp
    have hb := fbHourlyData_eq fbPosts h hh
    rw [hempty] at hb
    have hz : fbStats (fbTotalPosts fbPosts) (fbTotalEngagement fbPosts)
        (fbHourlyData fbPosts h) = ⟨0, 0, 0, 0⟩ := by
      rw [hb]; rfl
    have hmem : (h, fbStats (fbTotalPosts fbPosts) (fbTotalEngagement fbPosts)
        (fbHourlyData fbPosts h)) ∈ fb_get_best_times fbPosts :=
      List.mem_map_of_mem _ (List.mem_range.mpr hh)
    rwa [hz] at hmem

/-- Witness for C8: one Instagram post at hour 2, one Facebook post at
hour 3, inspecting the untouched hour 0. -/
theorem hourly_completeness_witness :
    (0 < 24 ∧ (∀ p ∈ [IGPost.mk (some 2) 5 10], p.hour ≠ some 0) ∧
      (∀ p ∈ [FBPost.mk (some 3) 4], p.hour ≠ some 0)) ∧
    ((ig_get_best_times [⟨some 2, 5, 10⟩]).map Prod.fst = List.range 24 ∧
      (ig_get_best_times [⟨some 2, 5, 10⟩]).length = 24 ∧
      (fb_get_best_times [⟨some 3, 4⟩]).map Prod.fst = List.range 24 ∧
      (fb_get_best_times [⟨some 3, 4⟩]).length = 24 ∧
      (0, (⟨0, 0, 0, 0⟩ : IGStats)) ∈ ig_get_best_times [⟨some 2, 5, 10⟩] ∧
      (0, (⟨0, 0, 0, 0⟩ : FBStats)) ∈ fb_get_best_times [⟨some 3, 4⟩]) :=
  ⟨⟨by decide, by decide, by decide⟩,
    hourly_completeness [⟨some 2, 5, 10⟩] [⟨some 3, 4⟩] 0 (by decide)
      (by decide) (by decide)⟩

unseal Rat.mul Rat.inv Rat.add Rat.sub in
/-- C9 counterexample: a single Instagram post at hour 0 with engagement 1
and reach 3 yields a reported rate of 33.33 (rounded to two decimals), which
differs from the claimed exact `meanEngagement / meanReach * 100 = 100/3`. -/
theorem engagement_rate_counterexample :
    ((ig_get_best_times [⟨some 0, 1, 3⟩])[0]!).2.engagement_rate =
      3333 / 100 ∧
    ((3333 : ℚ) / 100) ≠
      intListMean [(1 : Int)] / intListMean [(3 : Int)] * 100 := by
  constructor <;> decide

/-- C9 (amended): for every hour bucket with at least one post, the
Instagram aggregator reports `round((meanEngagement / meanReach) * 100, 2)`
(banker's rounding to two decimals, 0 unless the mean reach is positive),
while the Facebook aggregator instead reports the bucket's share of the
total engagement, `round((sum(bucket) / max(1, totalEngagement)) * 100, 2)`. -/
theorem engagement_rate_formula (igPosts : List IGPost) (fbPosts : List FBPost)
    (h : Nat) (hh : h < 24)
    (hig : igPostsAt igPosts h ≠ []) (hfb : fbPostsAt fbPosts h ≠ []) :
    (h, (⟨(if 0 < intListMean ((igPostsAt igPosts h).map IGPost.reach) then
            round2 (intListMean ((igPostsAt igPosts h).map IGPost.engagement) /
              intListMean ((igPostsAt igPosts h).map IGPost.reach) * 100)
          else 0),
        (igPostsAt igPosts h).length,
        ratTrunc (intListMean ((igPostsAt igPosts h).map IGPost.reach)),
        ratTrunc (intListMean ((igPostsAt igPosts h).map IGPost.engagement))⟩ :
          IGStats)) ∈ ig_get_best_times igPosts ∧
    (h, (⟨round2 (((((fbPostsAt fbPosts h).map FBPost.engagement).sum : ℚ) /
            ((max 1 (fbTotalEngagement fbPosts) : Int) : ℚ)) * 100),
        (fbPostsAt fbPosts h).length,
        round2 (((((fbPostsAt fbPosts h).length : Nat) : ℚ) /
            ((max 1 (fbTotalPosts fbPosts) : Nat) : ℚ)) * 100),
        ratTrunc (intListMean ((fbPostsAt fbPosts h).map FBPost.engagement))⟩ :
          FBStats)) ∈ fb_get_best_times fbPosts := by
  constructor
  · have hb := igHourlyData_eq igPosts h hh
    refine List.mem_map.mpr ⟨h, List.mem_range.mpr hh, ?_⟩
    rw [hb, igStats, if_pos (by simpa using hig)]
  · have hb := fbHourlyData_eq fbPosts h hh
    refine List.mem_map.mpr ⟨h, List.mem_range.mpr hh, ?_⟩
    rw [hb, fbStats, if_pos (by simpa using hfb)]

/-- Witness for C9 (amended): one Instagram post (hour 5, engagement 6,
reach 2) and one Facebook post (hour 5, engagement 7). -/
theorem engagement_rate_formula_witness :
    (5 < 24 ∧ igPostsAt [⟨some 5, 6, 2⟩] 5 ≠ [] ∧
      fbPostsAt [⟨some 5, 7⟩] 5 ≠ []) ∧
    ((5, (⟨(if 0 < intListMean ((igPostsAt [⟨some 5, 6, 2⟩] 5).map
              IGPost.reach) then
            round2 (intListMean ((igPostsAt [⟨some 5, 6, 2⟩] 5).map
                IGPost.engagement) /
              intListMean ((igPostsAt [⟨some 5, 6, 2⟩] 5).map IGPost.reach) *
              100)
          else 0),
        (igPostsAt [⟨some 5, 6, 2⟩] 5).length,
        ratTrunc (intListMean ((igPostsAt [⟨some 5, 6, 2⟩] 5).map
          IGPost.reach)),
        ratTrunc (intListMean ((igPostsAt [⟨some 5, 6, 2⟩] 5).map
          IGPost.engagement))⟩ : IGStats)) ∈
        ig_get_best_times [⟨some 5, 6, 2⟩] ∧
      (5, (⟨round2 (((((fbPostsAt [⟨some 5, 7⟩] 5).map
              FBPost.engagement).sum : ℚ) /
            ((max 1 (fbTotalEngagement [⟨some 5, 7⟩]) : Int) : ℚ)) * 100),
        (fbPostsAt [⟨some 5, 7⟩] 5).length,
        round2 (((((fbPostsAt [⟨some 5, 7⟩] 5).length : Nat) : ℚ) /
            ((max 1 (fbTotalPosts [⟨some 5, 7⟩]) : Nat) : ℚ)) * 100),
        ratTrunc (intListMean ((fbPostsAt [⟨some 5, 7⟩] 5).map
          FBPost.engagement))⟩ : FBStats)) ∈
        fb_get_best_times [⟨some 5, 7⟩]) :=
  ⟨⟨by decide, by decide, by decide⟩,
    engagement_rate_formula [⟨some 5, 6, 2⟩] [⟨some 5, 7⟩] 5 (by decide)
      (by decide) (by decide)⟩

/-- C10: every processed media item reports `reach ≥ 1` (missing or zero
upstream reach is clamped to 1), so its engagement-rate computation never
divides by zero: the denominator cast is nonzero and the reported rate is
exactly `round(engagement / reach * 100, 2)`. -/
theorem media_item_reach_clamped (insights : Option MediaMetrics)
    (item : ProcessedMediaItem) (hsome : process_media_item insights = some item) :
    1 ≤ item.reach ∧ ((item.reach : ℚ) ≠ 0) ∧
    item.engagement_rate =
      round2 (((item.engagement : ℚ) / (item.reach : ℚ)) * 100) := by
  match insights, hsome with
  | some m, hsome =>
      have hitem : item = ⟨round2 (((((m.likes.getD 0 + m.comments.getD 0 +
          m.shares.getD 0 + m.saved.getD 0) : Int) : ℚ) /
            ((max (m.reach.getD 1) 1 : Int) : ℚ)) * 100),
          max (m.reach.getD 1) 1,
          m.likes.getD 0 + m.comments.getD 0 + m.shares.getD 0 + m.saved.getD 0,
          max (m.reach.getD 1) 1, m.likes.getD 0, m.comments.getD 0,
          m.shares.getD 0, m.saved.getD 0⟩ := by
        have := hsome
        simp only [process_media_item, Option.some.injEq] at this
        exact this.symm
      subst hitem
      refine ⟨le_max_right _ 1, ?_, rfl⟩
      have h1 : (1 : Int) ≤ max (m.reach.getD 1) 1 := le_max_right _ 1
      intro hc
      rw [Int.cast_eq_zero] at hc
      have hc2 : max (m.reach.getD 1) 1 = 0 := hc
      rw [hc2] at h1
      exact absurd h1 (by norm_num)

unseal Rat.mul Rat.inv Rat.add Rat.sub in
/-- Witness for C10: a media item whose upstream reach metric is 0 is
clamped to reach 1 and reports rate `round(5 / 1 * 100, 2) = 500`. -/
theorem media_item_reach_clamped_witness :
    process_media_item (some ⟨some 0, some 5, some 0, some 0, some 0⟩) =
      some ⟨500, 1, 5, 1, 5, 0, 0, 0⟩ ∧
    (1 ≤ (ProcessedMediaItem.mk 500 1 5 1 5 0 0 0).reach ∧
      (((ProcessedMediaItem.mk 500 1 5 1 5 0 0 0).reach : ℚ) ≠ 0) ∧
      (ProcessedMediaItem.mk 500 1 5 1 5 0 0 0).engagement_rate =
        round2 ((((ProcessedMediaItem.mk 500 1 5 1 5 0 0 0).engagement : ℚ) /
          ((ProcessedMediaItem.mk 500 1 5 1 5 0 0 0).reach : ℚ)) * 100)) :=
  ⟨by decide,
    media_item_reach_clamped (some ⟨some 0, some 5, some 0, some 0, some 0⟩)
      ⟨500, 1, 5, 1, 5, 0, 0, 0⟩ (by decide)⟩
